import Mathlib

/-!
Verification of the WebScraper core (src/Web_Scrapper.py) against its
natural-language specification.  Strings are modelled as `List Char`,
raw byte bodies as `List Nat`.  External collaborators (HTTP transport,
HTML parser, URL resolution, per-format decoders, OCR) are passed in as
explicit parameters or oracles, matching the spec's interface for them;
everything else is translated from the Python source.
-/

/-- Whitespace test used by the tokenization model (space, tab, newline,
carriage return cover every character appearing in this development). -/
def isWS (c : Char) : Bool := c == ' ' || c == '\t' || c == '\n' || c == '\r'

/-- Index of the first `'>'` in the list, provided no `'\n'` occurs before it;
`none` otherwise.  This is where the non-greedy Python regex `<.*?>` (with `.`
not matching a newline) closes a match that started just before the list. -/
def findClose : List Char → Option Nat
  | [] => none
  | c :: rest =>
    if c == '>' then some 0
    else if c == '\n' then none
    else (findClose rest).map (fun k => k + 1)

/-- Fuel-indexed worker for `stripTags`; fuel `≥` length always suffices
because every step consumes at least one character. -/
def stripTagsF : Nat → List Char → List Char
  | _, [] => []
  | 0, l => l
  | fuel + 1, c :: rest =>
    if c == '<' then
      match findClose rest with
      | some k => stripTagsF fuel (rest.drop (k + 1))
      | none => '<' :: stripTagsF fuel rest
    else c :: stripTagsF fuel (rest)

/-- `re.sub(r'<.*?>', '', text)` from `WebScraper.clean_text`: scanning left to
right, each `'<'` that has a `'>'` later on the same line starts a match that
ends at the first such `'>'`; the match is deleted and scanning resumes after
it. -/
def stripTags (l : List Char) : List Char := stripTagsF l.length l

/-- Modelled from the spec: the spaCy tokenization collaborator used by
`clean_text` (`self.nlp`, external to this repository).  The spec describes it
as segmentation whose tokens are rejoined with single spaces, dropping
pure-whitespace tokens; it is modelled as maximal runs of non-whitespace
characters.  `acc` holds the (reversed) characters of the word being read. -/
def tokensAux : List Char → List Char → List (List Char)
  | [], acc => match acc with
    | [] => []
    | _ :: _ => [acc.reverse]
  | c :: rest, acc =>
    if isWS c = true then
      match acc with
      | [] => tokensAux rest []
      | _ :: _ => acc.reverse :: tokensAux rest []
    else tokensAux rest (c :: acc)

/-- The non-whitespace tokens of a string, in order. -/
def tokens (s : List Char) : List (List Char) := tokensAux s []

/-- Helper for `joinWords`: prefixes each remaining word with a single space. -/
def prependSpaces : List (List Char) → List Char
  | [] => []
  | t :: ts => ' ' :: (t ++ prependSpaces ts)

/-- `' '.join(tokens)` from `WebScraper.clean_text`. -/
def joinWords : List (List Char) → List Char
  | [] => []
  | t :: ts => t ++ prependSpaces ts

/-- `WebScraper.clean_text`: strip tag-like substrings, then rejoin the
non-whitespace tokens with single spaces. -/
def clean_text (s : List Char) : List Char := joinWords (tokens (stripTags s))


/-- `href.lower()` / `ext.lower()`: character-wise lowercasing. -/
def lower (s : List Char) : List Char := s.map Char.toLower

/-- Does the second list start with the first?  (Used to model Python's
substring and `str.replace` scanning.) -/
def startsWith : List Char → List Char → Bool
  | [], _ => true
  | _ :: _, [] => false
  | p :: ps, c :: rest => p == c && startsWith ps rest

/-- Python's `pat in s` substring test. -/
def containsSub (pat : List Char) : List Char → Bool
  | [] => startsWith pat []
  | c :: rest => startsWith pat (c :: rest) || containsSub pat rest

/-- `os.path.basename`: everything after the last `'/'`. -/
def basename (s : List Char) : List Char :=
  (s.reverse.takeWhile (fun c => c != '/')).reverse

/-- The extension part of `os.path.splitext` applied to a file name (the dot
included): text from the last dot on, except that a dot with only dots before
it does not start an extension. -/
def extOf (name : List Char) : List Char :=
  let r := name.reverse
  let afterDot := r.takeWhile (fun c => c != '.')
  if afterDot.length = r.length then []
  else
    let stemRev := r.drop (afterDot.length + 1)
    if stemRev.all (fun c => c == '.') then []
    else '.' :: afterDot.reverse

/-- `doc_extensions` from `WebScraper.download_documents`. -/
def doc_extensions : List (List Char) :=
  [".pdf".data, ".docx".data, ".doc".data, ".txt".data, ".csv".data,
   ".xls".data, ".xlsx".data]

/-- The selection test of `WebScraper.download_documents`:
`any(ext in href.lower() for ext in doc_extensions)`. -/
def isDocCandidate (href : List Char) : Bool :=
  doc_extensions.any (fun e => containsSub e (lower href))

/-- The extensions routed to a decoder by
`WebScraper.extract_text_from_document` (any other extension hits the
`Unsupported file type` early return). -/
def supported_doc_exts : List (List Char) :=
  [".pdf".data, ".docx".data, ".doc".data, ".csv".data, ".xls".data,
   ".xlsx".data, ".txt".data]

/-- `scheme + "://" + netloc`, the base used to resolve hrefs in
`extract_links`, `download_documents` and `download_images`. -/
def base_url_of (scheme netloc : List Char) : List Char :=
  scheme ++ "://".data ++ netloc

/-- The character filter of `WebScraper._create_safe_folder_name`:
`c.isalnum() or c in ['-', '_']` (alphanumeric modelled by
`Char.isAlphanum`). -/
def keep_char (c : Char) : Bool := c.isAlphanum || c == '-' || c == '_'

/-- Fuel-indexed worker for `replaceAll`; fuel `≥` length suffices because
every step consumes at least one character. -/
def replaceAllF (p : Char) (ps : List Char) : Nat → List Char → List Char
  | _, [] => []
  | 0, l => l
  | fuel + 1, c :: rest =>
    if startsWith (p :: ps) (c :: rest) then replaceAllF p ps fuel (rest.drop ps.length)
    else c :: replaceAllF p ps fuel rest

/-- Python's `str.replace(pat, '')`: delete every occurrence of `pat`,
scanning left to right over non-overlapping occurrences. -/
def replaceAll (pat : List Char) (s : List Char) : List Char :=
  match pat with
  | [] => s
  | p :: ps => replaceAllF p ps s.length s

/-- `WebScraper._create_safe_folder_name`: delete every occurrence of
`https://` then of `http://`, keep only alphanumerics, `'-'` and `'_'`,
truncate to 20 characters, and append `'_'` and the timestamp (the
`datetime.now().strftime` collaborator is passed in as `timestamp`). -/
def create_safe_folder_name (url : List Char) (timestamp : List Char) : List Char :=
  let safe_name := (replaceAll ("http://".data) (replaceAll ("https://".data) url)).filter keep_char
  safe_name.take 20 ++ '_' :: timestamp

/-- The folder-name derivation as claim C10 words it, for comparison with
`create_safe_folder_name`: strip only a leading `http://` or `https://`
prefix, then remove every character that is not alphanumeric, `'-'` or
`'_'`, truncate to 20 characters and append the timestamp. -/
def claimed_safe_folder_name (url : List Char) (timestamp : List Char) : List Char :=
  let stripped :=
    if startsWith ("https://".data) url = true then url.drop 8
    else if startsWith ("http://".data) url = true then url.drop 7
    else url
  (stripped.filter keep_char).take 20 ++ '_' :: timestamp

/-- The set of directories `os.makedirs(path, exist_ok = True)` brings into
existence under the (already existing) base output directory: the target and
every ancestor.  A directory is a list of path components relative to the
base output directory. -/
def mkdirsCreated : List String → List (List String)
  | [] => []
  | c :: rest => [c] :: (mkdirsCreated rest).map (fun q => c :: q)

/-- The directories created by `WebScraper.__init__` for a given set of
extraction flags (source lines 68-75): `links/`, `documents/`, `images/`
subdirectories of the run workspace `[name]`, and the workspace root for
text mode, each guarded by its flag. -/
def createdDirs (name : String) (l d i t : Bool) : List (List String) :=
  (if l = true then mkdirsCreated [name, "links"] else []) ++
  (if d = true then mkdirsCreated [name, "documents"] else []) ++
  (if i = true then mkdirsCreated [name, "images"] else []) ++
  (if t = true then mkdirsCreated [name] else [])


/-- An HTTP response as the `requests` collaborator delivers it: a status
code and the raw body bytes (`response.content`). -/
structure Resp where
  status : Nat
  body : List Nat
deriving DecidableEq

/-- `WebScraper.fetch_page_content`: `requests.get` either raises (`none`
input, caught and turned into `None`) or returns a response, on which
`raise_for_status` raises for any 4xx or 5xx status (also caught, `None`
returned). -/
def fetch_page_content (result : Option Resp) : Option Resp :=
  match result with
  | none => none
  | some r => if 400 ≤ r.status ∧ r.status < 600 then none else some r

/-- What one iteration of a download loop left behind for one asset:
the raw bytes saved under the asset's basename (if any), the cleaned text
written to the sibling `.txt` file (if any), and the contribution to the
downloaded count. -/
structure StepResult where
  rawSaved : Option (List Nat)
  txtSaved : Option (List Char)
  delta : Nat
deriving DecidableEq

/-- `WebScraper.extract_text_from_document` on the file saved under basename
`base`: dispatch on the lowercased extension; an unsupported extension
returns without writing; otherwise the format decoder (external, its outcome
passed as `decodeResult`, `none` modelling a raised decode error) produces raw
text, which is cleaned and written (`writeOk` models the final file write);
every failure is caught inside this function. -/
def extract_text_from_document (flag : Bool) (base : List Char)
    (decodeResult : Option (List Char)) (writeOk : Bool) : Option (List Char) :=
  if flag = false then none
  else if supported_doc_exts.contains (lower (extOf base)) = false then none
  else
    match decodeResult with
    | none => none
    | some raw => if writeOk = true then some (clean_text raw) else none

/-- `WebScraper.extract_text_from_image` on a saved image: the OCR
collaborator (outcome `ocrResult`, `none` modelling a raise) produces text,
which is cleaned and written; every failure is caught inside. -/
def extract_text_from_image (flag : Bool) (ocrResult : Option (List Char))
    (writeOk : Bool) : Option (List Char) :=
  if flag = false then none
  else
    match ocrResult with
    | none => none
    | some t => if writeOk = true then some (clean_text t) else none

/-- The body of the `download_documents` loop for one selected candidate:
fetch (`none` = the request raised), save the body bytes under the href's
basename (`saveOk` = the open/write did not raise), increment the count, then
attempt text extraction; the enclosing `try` turns any fetch/save failure
into a log-and-skip with no count. -/
def doc_step (fetch : Option Resp) (saveOk : Bool) (href : List Char)
    (decodeResult : Option (List Char)) (writeOk : Bool) : StepResult :=
  match fetch with
  | none => ⟨none, none, 0⟩
  | some r =>
    if saveOk = false then ⟨none, none, 0⟩
    else ⟨some r.body, extract_text_from_document true (basename href) decodeResult writeOk, 1⟩

/-- The body of the `download_images` loop for one image source, mirroring
`doc_step` with OCR in place of the format decoders. -/
def img_step (fetch : Option Resp) (saveOk : Bool)
    (ocrResult : Option (List Char)) (writeOk : Bool) : StepResult :=
  match fetch with
  | none => ⟨none, none, 0⟩
  | some r =>
    if saveOk = false then ⟨none, none, 0⟩
    else ⟨some r.body, extract_text_from_image true ocrResult writeOk, 1⟩

/-- The `for a_tag in soup.find_all('a', href=True)` loop of
`download_documents`: `i` numbers the anchors so each candidate has its own
oracle outcome.  Returns the count and the list of absolute URLs for which a
fetch was attempted (every selected candidate, in page order). -/
def docs_loop (join : List Char → List Char → List Char) (base : List Char)
    (fetchO : Nat → Option Resp) (saveO : Nat → Bool)
    (decodeO : Nat → Option (List Char)) (writeO : Nat → Bool) :
    List (List Char) → Nat → Nat × List (List Char)
  | [], _ => (0, [])
  | href :: rest, i =>
    if isDocCandidate href = true then
      ((doc_step (fetchO i) (saveO i) href (decodeO i) (writeO i)).delta
         + (docs_loop join base fetchO saveO decodeO writeO rest (i + 1)).1,
       join base href :: (docs_loop join base fetchO saveO decodeO writeO rest (i + 1)).2)
    else docs_loop join base fetchO saveO decodeO writeO rest (i + 1)

/-- `WebScraper.download_documents`: returns `0` at once when the mode is
disabled, else runs the anchor loop.  `join` is the `urllib.parse.urljoin`
collaborator and `base` the page's `scheme://netloc`. -/
def download_documents (flag : Bool) (join : List Char → List Char → List Char)
    (base : List Char) (fetchO : Nat → Option Resp) (saveO : Nat → Bool)
    (decodeO : Nat → Option (List Char)) (writeO : Nat → Bool)
    (anchors : List (List Char)) : Nat × List (List Char) :=
  if flag = false then (0, [])
  else docs_loop join base fetchO saveO decodeO writeO anchors 0

/-- The number of anchors selected as document candidates. -/
def selCount (anchors : List (List Char)) : Nat :=
  (anchors.filter isDocCandidate).length

/-- The number of selected candidates whose fetch-or-save fails (the request
raised, or the file write raised). -/
def failCount (fetchO : Nat → Option Resp) (saveO : Nat → Bool) :
    List (List Char) → Nat → Nat
  | [], _ => 0
  | href :: rest, i =>
    (if isDocCandidate href && !((fetchO i).isSome && saveO i) then 1 else 0)
      + failCount fetchO saveO rest (i + 1)

/-- The `for img_tag in soup.find_all('img', src=True)` loop of
`download_images`: every image source is fetched (no extension filter). -/
def imgs_loop (join : List Char → List Char → List Char) (base : List Char)
    (fetchO : Nat → Option Resp) (saveO : Nat → Bool)
    (ocrO : Nat → Option (List Char)) (writeO : Nat → Bool) :
    List (List Char) → Nat → Nat × List (List Char)
  | [], _ => (0, [])
  | src :: rest, i =>
    ((img_step (fetchO i) (saveO i) (ocrO i) (writeO i)).delta
       + (imgs_loop join base fetchO saveO ocrO writeO rest (i + 1)).1,
     join base src :: (imgs_loop join base fetchO saveO ocrO writeO rest (i + 1)).2)

/-- `WebScraper.download_images`. -/
def download_images (flag : Bool) (join : List Char → List Char → List Char)
    (base : List Char) (fetchO : Nat → Option Resp) (saveO : Nat → Bool)
    (ocrO : Nat → Option (List Char)) (writeO : Nat → Bool)
    (imgs : List (List Char)) : Nat × List (List Char) :=
  if flag = false then (0, [])
  else imgs_loop join base fetchO saveO ocrO writeO imgs 0

/-- `links.add(full_url)` on the Python `set`, modelled as an
insertion-ordered duplicate-free list. -/
def insert_new (l : List (List Char)) (x : List Char) : List (List Char) :=
  if x ∈ l then l else l ++ [x]

/-- `WebScraper.extract_links`: empty when the mode is disabled, else the set
of `urljoin(base, href)` over all anchors with an href. -/
def extract_links (flag : Bool) (join : List Char → List Char → List Char)
    (base : List Char) (anchors : List (List Char)) : List (List Char) :=
  if flag = false then []
  else anchors.foldl (fun acc h => insert_new acc (join base h)) []

/-- The write loop of `WebScraper.save_links`: `saved_link` is incremented
after each successful `f.write`; the first raising write aborts the loop
(the exception is caught by the surrounding `try`). -/
def links_write_loop (writeOk : Nat → Bool) : List (List Char) → Nat → Nat
  | [], _ => 0
  | _ :: rest, i =>
    if writeOk i = true then 1 + links_write_loop writeOk rest (i + 1) else 0

/-- `WebScraper.save_links`: `0` when the mode is disabled or the `open` of
`links.txt` raises; otherwise the number of links written before the first
failing write (all of them when no write fails). -/
def save_links (flag openOk : Bool) (writeOk : Nat → Bool)
    (links : List (List Char)) : Nat :=
  if flag = false then 0
  else if openOk = false then 0
  else links_write_loop writeOk links 0

/-- `WebScraper.save_webpage_text`: the status string returned to `scrape`
and the cleaned text written to `webpage_text.txt` (`none` when nothing is
written; a raised write maps to Python's implicit `None` return). -/
def save_webpage_text (flag : Bool) (writeOk : Bool) (pageText : List Char) :
    Option String × Option (List Char) :=
  if flag = false then (some "Text not extracted.", none)
  else if writeOk = true then (some "Text extracted.", some (joinWords (tokens pageText)))
  else (none, none)

/-- The parsed page as the BeautifulSoup collaborator exposes it to the
scraper: anchor hrefs, image sources, and the page's visible text. -/
structure Page where
  anchors : List (List Char)
  imgs : List (List Char)
  text : List Char

/-- One entry of the `Summary` list built by `WebScraper.scrape`. -/
inductive SummaryEntry where
  | links : Nat → SummaryEntry
  | documents : Nat → SummaryEntry
  | images : Nat → SummaryEntry
  | text : Option String → SummaryEntry
deriving DecidableEq

/-- The external collaborators and failure outcomes one run of `scrape`
consumes: URL resolution, the base URL, and per-asset oracles for each
fetch, file write, decode and OCR step. -/
structure ScrapeOracles where
  join : List Char → List Char → List Char
  base : List Char
  linksOpenOk : Bool
  linkWriteOk : Nat → Bool
  docFetch : Nat → Option Resp
  docSave : Nat → Bool
  docDecode : Nat → Option (List Char)
  docWrite : Nat → Bool
  imgFetch : Nat → Option Resp
  imgSave : Nat → Bool
  imgOcr : Nat → Option (List Char)
  imgWrite : Nat → Bool
  textWriteOk : Bool

/-- A trivial oracle assignment (identity-like resolution, everything
succeeds with empty data), used to instantiate theorems at concrete runs. -/
def trivialOracles : ScrapeOracles :=
  ⟨fun _ h => h, [], true, fun _ => true, fun _ => none, fun _ => true,
   fun _ => none, fun _ => true, fun _ => none, fun _ => true, fun _ => none,
   fun _ => true, true⟩

/-- `WebScraper.scrape`: fetch the root page (aborting with no summary when
that fails), parse it, run each enabled mode in order (links, documents,
images, text) and collect the summary.  The second component is the list of
asset URLs for which a fetch was attempted. -/
def scrape (t l d i : Bool) (rootResp : Option Resp) (parse : List Nat → Page)
    (o : ScrapeOracles) : Option (List SummaryEntry) × List (List Char) :=
  match fetch_page_content rootResp with
  | none => (none, [])
  | some r =>
    let page := parse r.body
    let docsR := download_documents d o.join o.base o.docFetch o.docSave o.docDecode o.docWrite page.anchors
    let imgsR := download_images i o.join o.base o.imgFetch o.imgSave o.imgOcr o.imgWrite page.imgs
    ((if l = true then
        [SummaryEntry.links (save_links l o.linksOpenOk o.linkWriteOk
          (extract_links l o.join o.base page.anchors))] else []) ++
     (if d = true then [SummaryEntry.documents docsR.1] else []) ++
     (if i = true then [SummaryEntry.images imgsR.1] else []) ++
     (if t = true then [SummaryEntry.text (save_webpage_text t o.textWriteOk page.text).1] else []),
     docsR.2 ++ imgsR.2)


/-!
Concrete sanity checks of the embedding on small inputs.
-/

example : stripTags ['<', '\n', '>'] = ['<', '\n', '>'] := by decide
example : clean_text ['<', '\n', '>'] = ['<', ' ', '>'] := by decide
example : clean_text (clean_text ['<', '\n', '>']) = [] := by decide
example : clean_text ("a <b>  c".data) = "a c".data := by decide
example : isDocCandidate ("/files/Report.PDF?v=1".data) = true := by decide
example : isDocCandidate ("/files/page.html".data) = false := by decide
example : extOf (basename ("files/report.zip".data)) = ".zip".data := by decide
example : extOf (".hidden".data) = [] := by decide
example : extOf ("a..txt".data) = ".txt".data := by decide
example : supported_doc_exts.contains (lower (extOf (basename ("files/report.zip".data)))) = false := by decide
example : create_safe_folder_name ("https://example.com/a b".data) ("20260101_000000".data) = "examplecomab_20260101_000000".data := by decide
example : createdDirs "ex" true false false false = [["ex"], ["ex", "links"]] := by decide
example : fetch_page_content (some ⟨404, []⟩) = none := by decide
example : fetch_page_content (some ⟨200, [1]⟩) = some ⟨200, [1]⟩ := by decide
example : save_links true true (fun j => decide (j = 0)) [['a'], ['b']] = 1 := by decide
example :
    (download_documents true (fun b h => b ++ h) [] (fun _ => some ⟨200, [1]⟩)
      (fun _ => true) (fun _ => none) (fun _ => true)
      ["/a.pdf".data, "/b.html".data, "/c.txt".data]).1 = 2 := by decide
example :
    scrape true true true true (some ⟨500, []⟩) (fun _ => ⟨[], [], []⟩)
      trivialOracles = (none, []) := by decide

/-- C2: if fetching the root page fails (request raised, timed out, or
`raise_for_status` raised on a 4xx/5xx status), `scrape` returns before any
extraction mode runs: no summary is produced and no asset fetch is
attempted. -/
theorem scrape_aborts_on_root_fetch_failure (t l d i : Bool)
    (rootResp : Option Resp) (parse : List Nat → Page) (o : ScrapeOracles)
    (h : fetch_page_content rootResp = none) :
    scrape t l d i rootResp parse o = (none, []) := by
  simp [scrape, h]

/-- Witness for `scrape_aborts_on_root_fetch_failure`: a 404 root response. -/
theorem scrape_aborts_on_root_fetch_failure_witness :
    fetch_page_content (some ⟨404, []⟩) = none ∧
      scrape true true true true (some ⟨404, []⟩) (fun _ => ⟨[], [], []⟩)
        trivialOracles = (none, []) :=
  ⟨by decide, scrape_aborts_on_root_fetch_failure true true true true
    (some ⟨404, []⟩) (fun _ => ⟨[], [], []⟩) trivialOracles (by decide)⟩

/-- C4: a downloaded document whose basename's lowercased extension is not in
the supported set keeps its raw file, gets no `.txt` sibling, and still
counts toward the downloaded total. -/
theorem unsupported_ext_raw_saved_no_txt (r : Resp)
    (decodeResult : Option (List Char)) (writeOk : Bool) (href : List Char)
    (h : supported_doc_exts.contains (lower (extOf (basename href))) = false) :
    doc_step (some r) true href decodeResult writeOk = ⟨some r.body, none, 1⟩ := by
  have h' : lower (extOf (basename href)) ∉ supported_doc_exts := by simpa using h
  simp [doc_step, extract_text_from_document, h']

/-- Witness for `unsupported_ext_raw_saved_no_txt`: a `.zip` candidate. -/
theorem unsupported_ext_raw_saved_no_txt_witness :
    supported_doc_exts.contains (lower (extOf (basename ("files/report.zip".data)))) = false ∧
      doc_step (some ⟨200, [1, 2]⟩) true ("files/report.zip".data) none true
        = ⟨some [1, 2], none, 1⟩ :=
  ⟨by decide, unsupported_ext_raw_saved_no_txt ⟨200, [1, 2]⟩ none true
    ("files/report.zip".data) (by decide)⟩

/-- C9: per-asset document and image fetches never consult the HTTP status:
a non-2xx response that does not raise is still saved byte-for-byte and the
mode's count still increments. -/
theorem asset_fetch_ignores_status (status : Nat) (body : List Nat)
    (href : List Char) (decodeResult ocrResult : Option (List Char))
    (writeOk : Bool) (_h : ¬(200 ≤ status ∧ status < 300)) :
    (doc_step (some ⟨status, body⟩) true href decodeResult writeOk).rawSaved = some body ∧
    (doc_step (some ⟨status, body⟩) true href decodeResult writeOk).delta = 1 ∧
    (img_step (some ⟨status, body⟩) true ocrResult writeOk).rawSaved = some body ∧
    (img_step (some ⟨status, body⟩) true ocrResult writeOk).delta = 1 := by
  refine ⟨?_, ?_, ?_, ?_⟩ <;> simp [doc_step, img_step]

/-- Witness for `asset_fetch_ignores_status`: a 404 asset response. -/
theorem asset_fetch_ignores_status_witness :
    ¬(200 ≤ 404 ∧ 404 < 300) ∧
      ((doc_step (some ⟨404, [9]⟩) true ("/a.pdf".data) none true).rawSaved = some [9] ∧
       (doc_step (some ⟨404, [9]⟩) true ("/a.pdf".data) none true).delta = 1 ∧
       (img_step (some ⟨404, [9]⟩) true none true).rawSaved = some [9] ∧
       (img_step (some ⟨404, [9]⟩) true none true).delta = 1) :=
  ⟨by decide, asset_fetch_ignores_status 404 [9] ("/a.pdf".data) none none true (by decide)⟩

/-- C5 counterexample: with only Links enabled, `os.makedirs` on the `links`
subdirectory also creates its parent, the workspace root — which the claim
assigns to the (disabled) Text mode — so the created set is not exactly the
enabled modes' locations. -/
theorem createdDirs_counterexample :
    ["example"] ∈ createdDirs "example" true false false false ∧
      createdDirs "example" true false false false ≠ [["example", "links"]] :=
  ⟨by decide, by decide⟩

/-- C7 counterexample: when the first `links.txt` write succeeds and the
second raises, `save_links` reports `1`, not the claimed `0`. -/
theorem save_links_partial_count_counterexample :
    (fun j => decide (j = 0)) 1 = false ∧
      save_links true true (fun j => decide (j = 0)) [['a'], ['b']] = 1 :=
  ⟨by decide, by decide⟩

/-- C3 counterexample: the input `'<', newline, '>'` contains no match of the
tag pattern `<.*?>` (`.` does not cross the newline), so the first
tag-stripping pass leaves it unchanged; but collapsing the newline to a
single space creates a match, and the second application of `clean_text`
removes it. -/
theorem clean_text_idem_counterexample :
    stripTags ['<', '\n', '>'] = ['<', '\n', '>'] ∧
      clean_text (clean_text ['<', '\n', '>']) ≠ clean_text ['<', '\n', '>'] :=
  ⟨by decide, by decide⟩

/-- C10 counterexample: `_create_safe_folder_name` removes every occurrence
of `http://`, not only a leading scheme prefix, so on a URL with `http://` in
the middle the derived name differs from the claim's description. -/
theorem safe_folder_name_counterexample :
    create_safe_folder_name ("xhttp://yyyyyyyyyyyyyyyyyyyyyyyy".data)
        ("20260101_000000".data) ≠
      claimed_safe_folder_name ("xhttp://yyyyyyyyyyyyyyyyyyyyyyyy".data)
        ("20260101_000000".data) := by
  decide

/-- C5 amended: `__init__` creates, for each enabled mode, its output
location together with its ancestors (`os.makedirs` is recursive), so a
directory exists exactly when it is an enabled mode's subdirectory or the
workspace root with at least one mode enabled; with no mode enabled nothing
is created. -/
theorem createdDirs_amended (name : String) (l d i t : Bool) (p : List String) :
    p ∈ createdDirs name l d i t ↔
      ((p = [name] ∧ (l || d || i || t) = true) ∨
       (p = [name, "links"] ∧ l = true) ∨
       (p = [name, "documents"] ∧ d = true) ∨
       (p = [name, "images"] ∧ i = true)) := by
  cases l <;> cases d <;> cases i <;> cases t <;>
    simp [createdDirs, mkdirsCreated] <;> tauto

/-- C10 amended: the derived workspace folder name consists only of
alphanumeric characters, `'-'` and `'_'` (given the `strftime` timestamp,
made of digits and an underscore); the derivation removes every occurrence of
`https://` then `http://` (not only a leading prefix), drops every other
non-alphanumeric, non-`'-'`, non-`'_'` character, truncates to 20 characters
and appends the underscore-separated timestamp. -/
theorem safe_folder_name_amended (url timestamp : List Char)
    (h : ∀ c ∈ timestamp, c.isDigit = true ∨ c = '_') :
    ∀ c ∈ create_safe_folder_name url timestamp,
      c.isAlphanum = true ∨ c = '-' ∨ c = '_' := by
  intro c hc
  unfold create_safe_folder_name at hc
  rcases List.mem_append.1 hc with h1 | h2
  · have h3 : keep_char c = true :=
      (List.mem_filter.1 (List.take_subset _ _ h1)).2
    unfold keep_char at h3
    simp only [Bool.or_eq_true, beq_iff_eq] at h3
    tauto
  · rcases List.mem_cons.1 h2 with rfl | hts
    · exact Or.inr (Or.inr rfl)
    · rcases h c hts with hd | rfl
      · exact Or.inl (by simp [Char.isAlphanum, hd])
      · exact Or.inr (Or.inr rfl)

/-- Witness for `safe_folder_name_amended`: a concrete URL and timestamp. -/
theorem safe_folder_name_amended_witness :
    (∀ c ∈ ("20260101_000000".data), c.isDigit = true ∨ c = '_') ∧
      ∀ c ∈ create_safe_folder_name ("https://example.com/a b".data)
          ("20260101_000000".data),
        c.isAlphanum = true ∨ c = '-' ∨ c = '_' :=
  ⟨by decide, safe_folder_name_amended ("https://example.com/a b".data)
    ("20260101_000000".data) (by decide)⟩

/-- Reading a whitespace-free word moves it whole into the accumulator. -/
theorem tokensAux_word (t : List Char) :
    ∀ (s acc : List Char), (∀ c ∈ t, isWS c = false) →
      tokensAux (t ++ s) acc = tokensAux s (t.reverse ++ acc) := by
  induction t with
  | nil => intro s acc _; simp
  | cons c t' ih =>
    intro s acc h
    have hc : isWS c = false := h c (List.mem_cons_self c t')
    simp only [List.cons_append, tokensAux, hc, Bool.false_eq_true, if_false]
    change tokensAux (t' ++ s) (c :: acc) = _
    rw [ih _ _ (fun x hx => h x (List.mem_cons_of_mem _ hx))]
    simp [List.append_assoc]

/-- Every token produced by `tokensAux` is nonempty and whitespace-free,
provided the accumulator is whitespace-free. -/
theorem tokensAux_wf : ∀ (s acc : List Char), (∀ c ∈ acc, isWS c = false) →
    ∀ t ∈ tokensAux s acc, t ≠ [] ∧ ∀ c ∈ t, isWS c = false := by
  intro s
  induction s with
  | nil =>
    intro acc hacc t ht
    cases acc with
    | nil => simp [tokensAux] at ht
    | cons a as =>
      simp only [tokensAux, List.mem_singleton] at ht
      subst ht
      refine ⟨by simp, fun c hcmem => hacc c (List.mem_reverse.1 hcmem)⟩
  | cons c rest ih =>
    intro acc hacc t ht
    by_cases hw : isWS c = true
    · cases acc with
      | nil =>
        simp only [tokensAux, hw, if_true] at ht
        exact ih [] (by simp) t ht
      | cons a as =>
        simp only [tokensAux, hw, if_true, List.mem_cons] at ht
        rcases ht with rfl | ht'
        · refine ⟨by simp, fun x hx => hacc x (List.mem_reverse.1 hx)⟩
        · exact ih [] (by simp) t ht'
    · have hw' : isWS c = false := by simpa using hw
      simp only [tokensAux, hw', Bool.false_eq_true, if_false] at ht
      refine ih (c :: acc) ?_ t ht
      intro x hx
      rcases List.mem_cons.1 hx with rfl | hx'
      · exact hw'
      · exact hacc x hx'

/-- Tokenizing the single-space join of nonempty whitespace-free words gives
the words back. -/
theorem tokens_joinWords : ∀ (ts : List (List Char)),
    (∀ t ∈ ts, t ≠ [] ∧ ∀ c ∈ t, isWS c = false) →
    tokens (joinWords ts) = ts := by
  intro ts
  induction ts with
  | nil => intro _; rfl
  | cons t ts' ih =>
    intro h
    have ht := h t (List.mem_cons_self t ts')
    unfold tokens joinWords
    rw [tokensAux_word t _ [] ht.2, List.append_nil]
    cases ts' with
    | nil =>
      cases hr : t.reverse with
      | nil => exact absurd (by simpa using congrArg List.reverse hr) ht.1
      | cons a as =>
        simp only [prependSpaces]
        have hstep : tokensAux ([] : List Char) (a :: as) = [(a :: as).reverse] := rfl
        rw [hstep, ← hr, List.reverse_reverse]
    | cons t' ts'' =>
      have hih := ih (fun x hx => h x (List.mem_cons_of_mem _ hx))
      cases hr : t.reverse with
      | nil => exact absurd (by simpa using congrArg List.reverse hr) ht.1
      | cons a as =>
        simp only [prependSpaces]
        have hstep : tokensAux (' ' :: (t' ++ prependSpaces ts'')) (a :: as)
            = (a :: as).reverse :: tokensAux (t' ++ prependSpaces ts'') [] := rfl
        rw [hstep, ← hr, List.reverse_reverse]
        have he : tokensAux (t' ++ prependSpaces ts'') [] = t' :: ts'' := hih
        rw [he]

/-- Tokenizing is unchanged by one join-and-retokenize round trip. -/
theorem tokens_join_tokens (s : List Char) :
    tokens (joinWords (tokens s)) = tokens s :=
  tokens_joinWords (tokens s) (tokensAux_wf s [] (by simp))

/-- C3 amended: `clean_text` is idempotent on every input whose once-cleaned
output contains no match of the tag pattern (whitespace collapsing may create
a new `<...>` match out of a `'<'` and `'>'` separated by a newline, which is
exactly what the counterexample exploits; when it does not, the second
application is the identity). -/
theorem clean_text_idem_once_cleaned (x : List Char)
    (h : stripTags (clean_text x) = clean_text x) :
    clean_text (clean_text x) = clean_text x := by
  show joinWords (tokens (stripTags (clean_text x))) = clean_text x
  rw [h]
  show joinWords (tokens (joinWords (tokens (stripTags x)))) = clean_text x
  rw [tokens_join_tokens]
  rfl

/-- Witness for `clean_text_idem_once_cleaned`: a tag-free input with extra
whitespace. -/
theorem clean_text_idem_once_cleaned_witness :
    stripTags (clean_text ("a  <b> c".data)) = clean_text ("a  <b> c".data) ∧
      clean_text (clean_text ("a  <b> c".data)) = clean_text ("a  <b> c".data) :=
  ⟨by decide, clean_text_idem_once_cleaned ("a  <b> c".data) (by decide)⟩

/-- A document-loop step contributes `1` to the count exactly when its fetch
did not raise and its raw-file save did not raise. -/
theorem doc_step_delta (fetch : Option Resp) (saveOk : Bool) (href : List Char)
    (decodeResult : Option (List Char)) (writeOk : Bool) :
    (doc_step fetch saveOk href decodeResult writeOk).delta
      = if fetch.isSome && saveOk then 1 else 0 := by
  cases fetch <;> cases saveOk <;> simp [doc_step]

/-- The document loop's count plus its failures equals the number of
selected candidates, at every starting index. -/
theorem docs_loop_count (join : List Char → List Char → List Char)
    (base : List Char) (fO : Nat → Option Resp) (sO : Nat → Bool)
    (dO : Nat → Option (List Char)) (wO : Nat → Bool) :
    ∀ (l : List (List Char)) (i : Nat),
      (docs_loop join base fO sO dO wO l i).1 + failCount fO sO l i
        = (l.filter isDocCandidate).length := by
  intro l
  induction l with
  | nil => intro i; simp [docs_loop, failCount]
  | cons href rest ih =>
    intro i
    have h1 := ih (i + 1)
    by_cases hs : isDocCandidate href = true
    · simp only [docs_loop, failCount, hs, if_true, doc_step_delta,
        Bool.true_and, List.filter_cons, List.length_cons]
      cases hok : (fO i).isSome && sO i <;> simp [hok] <;> omega
    · have hs' : isDocCandidate href = false := by simpa using hs
      simp only [docs_loop, failCount, hs', Bool.false_eq_true, if_false,
        Bool.false_and, List.filter_cons, zero_add]
      exact h1

/-- C1: with Documents mode enabled, `download_documents` is total (every
per-asset failure is caught inside the loop) and returns `N - M`, where `N`
is the number of anchors selected as document candidates and `M` the number
of selected candidates whose fetch-or-save fails; failed candidates do not
stop the iteration. -/
theorem download_documents_count_spec (join : List Char → List Char → List Char)
    (base : List Char) (fO : Nat → Option Resp) (sO : Nat → Bool)
    (dO : Nat → Option (List Char)) (wO : Nat → Bool)
    (anchors : List (List Char)) :
    (download_documents true join base fO sO dO wO anchors).1
      = selCount anchors - failCount fO sO anchors 0 := by
  have h := docs_loop_count join base fO sO dO wO anchors 0
  unfold download_documents selCount
  simp only [Bool.true_eq_false, if_false]
  omega

/-- The document loop attempts a fetch for exactly the selected candidates,
in page order, at their hrefs resolved against the base URL. -/
theorem docs_loop_trace (join : List Char → List Char → List Char)
    (base : List Char) (fO : Nat → Option Resp) (sO : Nat → Bool)
    (dO : Nat → Option (List Char)) (wO : Nat → Bool) :
    ∀ (l : List (List Char)) (i : Nat),
      (docs_loop join base fO sO dO wO l i).2
        = (l.filter isDocCandidate).map (join base) := by
  intro l
  induction l with
  | nil => intro i; simp [docs_loop]
  | cons href rest ih =>
    intro i
    by_cases hs : isDocCandidate href = true
    · simp only [docs_loop, hs, if_true, List.filter_cons,
        List.map_cons, ih (i + 1)]
    · have hs' : isDocCandidate href = false := by simpa using hs
      simp only [docs_loop, hs', Bool.false_eq_true, if_false, List.filter_cons]
      exact ih (i + 1)

/-- C8: an anchor is selected as a document candidate exactly when its
lowercased href contains one of the seven extensions as a substring, and each
selected candidate is fetched at its href resolved against the page's
`scheme://netloc`. -/
theorem doc_candidate_selection_spec (join : List Char → List Char → List Char)
    (scheme netloc : List Char) (fO : Nat → Option Resp) (sO : Nat → Bool)
    (dO : Nat → Option (List Char)) (wO : Nat → Bool)
    (anchors : List (List Char)) :
    (download_documents true join (base_url_of scheme netloc) fO sO dO wO anchors).2
        = (anchors.filter isDocCandidate).map (join (base_url_of scheme netloc))
      ∧ ∀ href, isDocCandidate href = true ↔
          ∃ e, e ∈ doc_extensions ∧ containsSub e (lower href) = true := by
  constructor
  · simpa [download_documents] using
      docs_loop_trace join (base_url_of scheme netloc) fO sO dO wO anchors 0
  · intro href
    simp [isDocCandidate, List.any_eq_true]

/-- Membership in the Python-set model after one insertion. -/
theorem mem_insert_new (l : List (List Char)) (x y : List Char) :
    y ∈ insert_new l x ↔ y ∈ l ∨ y = x := by
  unfold insert_new
  by_cases hx : x ∈ l
  · simp only [if_pos hx]
    constructor
    · exact fun hy => Or.inl hy
    · rintro (hy | rfl)
      · exact hy
      · exact hx
  · simp [if_neg hx]

/-- Insertion into the Python-set model preserves freedom from duplicates. -/
theorem nodup_insert_new (l : List (List Char)) (x : List Char)
    (h : l.Nodup) : (insert_new l x).Nodup := by
  unfold insert_new
  by_cases hx : x ∈ l
  · simpa [if_pos hx] using h
  · rw [if_neg hx]
    exact h.append (List.nodup_singleton x) (by simpa using hx)

/-- Membership characterization of the anchor fold of `extract_links`. -/
theorem mem_extract_links_foldl (join : List Char → List Char → List Char)
    (base : List Char) :
    ∀ (anchors acc : List (List Char)) (u : List Char),
      u ∈ anchors.foldl (fun a h => insert_new a (join base h)) acc ↔
        u ∈ acc ∨ ∃ h, h ∈ anchors ∧ u = join base h := by
  intro anchors
  induction anchors with
  | nil => intro acc u; simp
  | cons a rest ih =>
    intro acc u
    simp only [List.foldl_cons]
    rw [ih, mem_insert_new]
    constructor
    · rintro ((hu | rfl) | ⟨h, hh, rfl⟩)
      · exact Or.inl hu
      · exact Or.inr ⟨a, List.mem_cons_self a rest, rfl⟩
      · exact Or.inr ⟨h, List.mem_cons_of_mem _ hh, rfl⟩
    · rintro (hu | ⟨h, hh, rfl⟩)
      · exact Or.inl (Or.inl hu)
      · rcases List.mem_cons.1 hh with rfl | hh'
        · exact Or.inl (Or.inr rfl)
        · exact Or.inr ⟨h, hh', rfl⟩

/-- The anchor fold of `extract_links` never introduces duplicates. -/
theorem nodup_extract_links_foldl (join : List Char → List Char → List Char)
    (base : List Char) :
    ∀ (anchors acc : List (List Char)), acc.Nodup →
      (anchors.foldl (fun a h => insert_new a (join base h)) acc).Nodup := by
  intro anchors
  induction anchors with
  | nil => intro acc h; simpa using h
  | cons a rest ih =>
    intro acc h
    simp only [List.foldl_cons]
    exact ih _ (nodup_insert_new _ _ h)

/-- C6: with Links mode enabled, `extract_links` returns exactly the
anchors' hrefs resolved against the page's `scheme://netloc`, with no
duplicate URL even when several anchors resolve to the same absolute URL
(order irrelevant: the result is characterized by membership). -/
theorem extract_links_resolved_nodup (join : List Char → List Char → List Char)
    (scheme netloc : List Char) (anchors : List (List Char)) :
    (extract_links true join (base_url_of scheme netloc) anchors).Nodup ∧
      ∀ u, u ∈ extract_links true join (base_url_of scheme netloc) anchors ↔
        ∃ h, h ∈ anchors ∧ u = join (base_url_of scheme netloc) h := by
  have he : extract_links true join (base_url_of scheme netloc) anchors
      = anchors.foldl (fun acc h => insert_new acc (join (base_url_of scheme netloc) h)) [] := by
    simp [extract_links]
  constructor
  · rw [he]
    exact nodup_extract_links_foldl _ _ anchors [] List.nodup_nil
  · intro u
    rw [he, mem_extract_links_foldl]
    simp

/-- The `save_links` write loop stops at the first failing write and reports
the number of successful writes before it. -/
theorem links_write_loop_stop (wk : Nat → Bool) :
    ∀ (links : List (List Char)) (i k : Nat), k < links.length →
      (∀ j, j < k → wk (i + j) = true) → wk (i + k) = false →
      links_write_loop wk links i = k := by
  intro links
  induction links with
  | nil => intro i k hk; simp at hk
  | cons x rest ih =>
    intro i k hk h1 h2
    cases k with
    | zero =>
      have hx : wk i = false := by simpa using h2
      simp [links_write_loop, hx]
    | succ k' =>
      have hx : wk i = true := by simpa using h1 0 (Nat.succ_pos k')
      have hk' : k' < rest.length := by
        simp only [List.length_cons] at hk
        omega
      have hrec : links_write_loop wk rest (i + 1) = k' := by
        refine ih (i + 1) k' hk' ?_ ?_
        · intro j hj
          have hj1 := h1 (j + 1) (by omega)
          have e : i + (j + 1) = i + 1 + j := by omega
          rwa [e] at hj1
        · have e : i + (k' + 1) = i + 1 + k' := by omega
          rwa [e] at h2
      simp only [links_write_loop, hx, if_true, hrec]
      omega

/-- C7 amended: if the `open` of `links.txt` fails the reported links count
is `0`; if a write raises partway, the count equals the number of links
already written before the failure; either way the failure is only logged
and the other enabled modes still execute and appear in the summary, whose
non-links entries are unchanged. -/
theorem save_links_failure_amended (wk : Nat → Bool) (links : List (List Char))
    (k : Nat) (t d i : Bool) (bs : List Nat) (parse : List Nat → Page)
    (o : ScrapeOracles) :
    save_links true false wk links = 0 ∧
      (k < links.length → (∀ j, j < k → wk j = true) → wk k = false →
        save_links true true wk links = k) ∧
      scrape t true d i (some ⟨200, bs⟩) parse { o with linksOpenOk := false } =
        (some (SummaryEntry.links 0 ::
           ((scrape t true d i (some ⟨200, bs⟩) parse o).1.getD []).tail),
         (scrape t true d i (some ⟨200, bs⟩) parse o).2) := by
  refine ⟨by simp [save_links], ?_, ?_⟩
  · intro hk h1 h2
    have hstop := links_write_loop_stop wk links 0 k hk
      (by simpa using h1) (by simpa using h2)
    simpa [save_links] using hstop
  · simp [scrape, fetch_page_content, save_links]

/-- Witness for `save_links_failure_amended`: three links, the second write
fails, one link is counted. -/
theorem save_links_failure_amended_witness :
    save_links true true (fun j => decide (j < 1)) [['a'], ['b'], ['c']] = 1 :=
  (save_links_failure_amended (fun j => decide (j < 1)) [['a'], ['b'], ['c']] 1
    false false false [] (fun _ => ⟨[], [], []⟩) trivialOracles).2.1
    (by decide) (by decide) (by decide)
